import Mathlib

/-!
Shallow embedding of the `armor` crate (HTTP security headers):
`src/lib.rs` (fixed single-value header functions, Referrer-Policy) and
`src/csp.rs` (the Content-Security-Policy builder).

Header collections (`http::HeaderMap`) are modelled as ordered lists of
(name, value) pairs with names normalised to lowercase, supporting the four
operations the crate uses: insert (overwrite), append, remove, contains-key.
Rust's `HashMap<String, Vec<String>>` for CSP directives is modelled as an
association list in first-insertion order; `Vec::sort` (a stable sort by the
byte-lexicographic order on strings, which coincides with the
codepoint-lexicographic order used by Lean's `String` order on UTF-8 data)
is modelled by Mathlib's stable `List.insertionSort`.
-/

namespace Armor

/-- Lowercasing of a header name (names are ASCII), modelling the
normalisation `http::HeaderName` performs. -/
def lowerName (s : String) : String :=
  String.mk (s.data.map Char.toLower)

/-- Model of `http::HeaderMap`: an ordered multimap whose keys are
case-insensitive header names, stored lowercased (as `http::HeaderMap` does). -/
structure HeaderMap where
  entries : List (String × String)
  deriving Repr, DecidableEq

namespace HeaderMap

/-- The empty header collection (`http::HeaderMap::new`). -/
def empty : HeaderMap := ⟨[]⟩

/-- All values stored under a (case-insensitive) header name, in order. -/
def getAll (m : HeaderMap) (name : String) : List String :=
  (m.entries.filter (fun e => e.1 = lowerName name)).map Prod.snd

/-- `HeaderMap::insert`: replace every value stored under the name. -/
def insert (m : HeaderMap) (name : String) (val : String) : HeaderMap :=
  ⟨m.entries.filter (fun e => e.1 ≠ lowerName name) ++ [(lowerName name, val)]⟩

/-- `HeaderMap::append`: add one more occurrence of the header. -/
def append (m : HeaderMap) (name : String) (val : String) : HeaderMap :=
  ⟨m.entries ++ [(lowerName name, val)]⟩

/-- `HeaderMap::remove`: drop every value stored under the name. -/
def remove (m : HeaderMap) (name : String) : HeaderMap :=
  ⟨m.entries.filter (fun e => e.1 ≠ lowerName name)⟩

/-- `HeaderMap::contains_key`. -/
def containsKey (m : HeaderMap) (name : String) : Bool :=
  m.entries.any (fun e => e.1 = lowerName name)

end HeaderMap

/-! ### Fixed single-value header functions (`src/lib.rs`) -/

/-- `pub fn dns_prefetch_control(headers: &mut HeaderMap)`. -/
def dns_prefetch_control (headers : HeaderMap) : HeaderMap :=
  headers.insert "X-DNS-Prefetch-Control" "on"

/-- `pub enum FrameOptions`. -/
inductive FrameOptions where
  | SameOrigin
  | Deny
  deriving Repr, DecidableEq

/-- `pub fn frameguard(headers: &mut HeaderMap, guard: Option<FrameOptions>)`. -/
def frameguard (headers : HeaderMap) (guard : Option FrameOptions) : HeaderMap :=
  let kind := match guard with
    | none | some FrameOptions.SameOrigin => "sameorigin"
    | some FrameOptions.Deny => "deny"
  headers.insert "X-Frame-Options" kind

/-- `pub fn hide_powered_by(headers: &mut HeaderMap)`. -/
def hide_powered_by (headers : HeaderMap) : HeaderMap :=
  headers.remove "X-Powered-By"

/-- `pub fn hsts(headers: &mut HeaderMap)`. -/
def hsts (headers : HeaderMap) : HeaderMap :=
  headers.insert "Strict-Transport-Security" "max-age=5184000"

/-- `pub fn dont_sniff_mimetype(headers: &mut HeaderMap)`. -/
def dont_sniff_mimetype (headers : HeaderMap) : HeaderMap :=
  headers.insert "X-Content-Type-Options" "nosniff"

/-- `pub fn xss_filter(headers: &mut HeaderMap)`. -/
def xss_filter (headers : HeaderMap) : HeaderMap :=
  headers.insert "X-XSS-Protection" "1; mode=block"

/-- `pub enum ReferrerOptions`. -/
inductive ReferrerOptions where
  | Empty
  | NoReferrer
  | NoReferrerDowngrade
  | SameOrigin
  | Origin
  | StrictOrigin
  | CrossOrigin
  | StrictCrossOrigin
  | UnsafeUrl
  deriving Repr, DecidableEq

/-- The string the `match` in `referrer_policy` chooses for a given argument. -/
def referrerValue (referrer : Option ReferrerOptions) : String :=
  match referrer with
  | none | some ReferrerOptions.Empty => ""
  | some ReferrerOptions.NoReferrer => "no-referrer"
  | some ReferrerOptions.NoReferrerDowngrade => "no-referrer-when-downgrade"
  | some ReferrerOptions.SameOrigin => "same-origin"
  | some ReferrerOptions.Origin => "origin"
  | some ReferrerOptions.StrictOrigin => "strict-origin"
  | some ReferrerOptions.CrossOrigin => "origin-when-cross-origin"
  | some ReferrerOptions.StrictCrossOrigin => "strict-origin-when-cross-origin"
  | some ReferrerOptions.UnsafeUrl => "unsafe-url"

/-- `pub fn referrer_policy(headers: &mut HeaderMap, referrer: Option<ReferrerOptions>)`:
appends when the header is already present, inserts otherwise. -/
def referrer_policy (headers : HeaderMap) (referrer : Option ReferrerOptions) : HeaderMap :=
  let policy := referrerValue referrer
  if headers.containsKey "Referrer-Policy" then
    headers.append "Referrer-Policy" policy
  else
    headers.insert "Referrer-Policy" policy

/-! ### CSP builder (`src/csp.rs`) -/

/-- `pub enum Source`. -/
inductive Source where
  | SameOrigin
  | SRC
  | None
  | UnsafeInline
  | Data
  | Mediastream
  | HTTPS
  | Blob
  | Filesystem
  | StrictDynamic
  | UnsafeEval
  | Wildcard
  deriving Repr, DecidableEq

/-- `impl fmt::Display for Source` (the string `write!` produces). -/
def sourceDisplay (s : Source) : String :=
  match s with
  | Source.SameOrigin => "'self'"
  | Source.SRC => "'src'"
  | Source.None => "'none'"
  | Source.UnsafeInline => "'unsafe-inline'"
  | Source.Data => "data:"
  | Source.Mediastream => "mediastream:"
  | Source.HTTPS => "https:"
  | Source.Blob => "blob:"
  | Source.Filesystem => "filesystem:"
  | Source.StrictDynamic => "'strict-dynamic'"
  | Source.UnsafeEval => "'unsafe-eval'"
  | Source.Wildcard => "*"

/-- `impl AsRef<str> for Source`. -/
def sourceAsRef (s : Source) : String :=
  match s with
  | Source.SameOrigin => "'self'"
  | Source.SRC => "'src'"
  | Source.None => "'none'"
  | Source.UnsafeInline => "'unsafe-inline'"
  | Source.Data => "data:"
  | Source.Mediastream => "mediastream:"
  | Source.HTTPS => "https:"
  | Source.Blob => "blob:"
  | Source.Filesystem => "filesystem:"
  | Source.StrictDynamic => "'strict-dynamic'"
  | Source.UnsafeEval => "'unsafe-eval'"
  | Source.Wildcard => "*"

/-- `pub struct ReportToEndpoint`. -/
structure ReportToEndpoint where
  url : String
  deriving Repr, DecidableEq

/-- `pub struct ReportTo` (`max_age: i32` modelled as `Int`). -/
structure ReportTo where
  group : Option String
  max_age : Int
  endpoints : List ReportToEndpoint
  include_subdomains : Option Bool
  deriving Repr, DecidableEq

/-- Lower-case hex digit, as `serde_json` emits in `\u00XX` escapes. -/
def hexDigit (n : Nat) : Char :=
  if n < 10 then Char.ofNat (48 + n) else Char.ofNat (87 + n)

/-- How `serde_json` escapes one character inside a JSON string literal. -/
def jsonEscapeChar (c : Char) : String :=
  if c = Char.ofNat 34 then String.mk [Char.ofNat 92, Char.ofNat 34]
  else if c = Char.ofNat 92 then String.mk [Char.ofNat 92, Char.ofNat 92]
  else if c = Char.ofNat 8 then String.mk [Char.ofNat 92, Char.ofNat 98]
  else if c = Char.ofNat 9 then String.mk [Char.ofNat 92, Char.ofNat 116]
  else if c = Char.ofNat 10 then String.mk [Char.ofNat 92, Char.ofNat 110]
  else if c = Char.ofNat 12 then String.mk [Char.ofNat 92, Char.ofNat 102]
  else if c = Char.ofNat 13 then String.mk [Char.ofNat 92, Char.ofNat 114]
  else if c.toNat < 32 then
    "\\u00" ++ String.mk [hexDigit (c.toNat / 16), hexDigit (c.toNat % 16)]
  else String.mk [c]

/-- A JSON string literal for `s`, as `serde_json` renders it. -/
def jsonString (s : String) : String :=
  "\"" ++ String.join (s.data.map jsonEscapeChar) ++ "\""

/-- `serde_json` serialization of a `ReportToEndpoint` (derived `Serialize`). -/
def serializeEndpoint (e : ReportToEndpoint) : String :=
  "\x7b\"url\":" ++ jsonString e.url ++ "\x7d"

/-- `serde_json` serialization of a `ReportTo` (derived `Serialize`):
fields in declaration order, `group` and `include_subdomains` skipped when
`None` (`skip_serializing_if = "Option::is_none"`). -/
def serializeReportTo (r : ReportTo) : String :=
  "\x7b" ++
  (match r.group with
   | none => ""
   | some g => "\"group\":" ++ jsonString g ++ ",") ++
  "\"max_age\":" ++ toString r.max_age ++
  ",\"endpoints\":[" ++ String.intercalate "," (r.endpoints.map serializeEndpoint) ++ "]" ++
  (match r.include_subdomains with
   | none => ""
   | some b => ",\"include_subdomains\":" ++ (if b then "true" else "false")) ++
  "\x7d"

/-- `serde_json::to_string(&endpoint)` for a `ReportTo`: on these field types
(strings, `i32`, nested structs) serialization always succeeds. -/
def serdeToString (r : ReportTo) : Except String String :=
  Except.ok (serializeReportTo r)

/-- `pub struct ContentSecurityPolicy`. The `HashMap<String, Vec<String>>` of
directives is modelled as an association list in first-insertion order. -/
structure ContentSecurityPolicy where
  policy : List String
  report_only_flag : Bool
  directives : List (String × List String)
  deriving Repr, DecidableEq

/-- `HashMap::entry(k).or_insert_with(Vec::new)` followed by `push(v)`. -/
def entryPush : List (String × List String) → String → String → List (String × List String)
  | [], d, s => [(d, [s])]
  | (k, vs) :: rest, d, s =>
    if k = d then (k, vs ++ [s]) :: rest else (k, vs) :: entryPush rest d s

/-- Lexicographic strict order on character lists (by codepoint, which on
UTF-8 data coincides with Rust's byte-lexicographic `Ord` for `String`). -/
def strLtB : List Char → List Char → Bool
  | _, [] => false
  | [], _ :: _ => true
  | a :: as, b :: bs =>
    if Nat.blt a.toNat b.toNat then true
    else if Nat.blt b.toNat a.toNat then false
    else strLtB as bs

/-- `a <= b` for strings, the total order `Vec::<String>::sort()` sorts by. -/
def strLe (a b : String) : Bool :=
  !(strLtB b.data a.data)

/-- Stable sort of strings modelling `Vec::<String>::sort()` (a stable sort
by the lexicographic order). -/
def sortStrings (l : List String) : List String :=
  List.insertionSort (fun a b : String => strLe a b = true) l

namespace ContentSecurityPolicy

/-- `ContentSecurityPolicy::new` / `pub fn new()`. -/
def new : ContentSecurityPolicy :=
  { policy := [], report_only_flag := false, directives := [] }

/-- `impl Default for ContentSecurityPolicy`. -/
def default : ContentSecurityPolicy :=
  { policy := ["script-src 'self'; object-src 'self'"]
    report_only_flag := false
    directives := [] }

/-- `fn insert_directive`. -/
def insert_directive (csp : ContentSecurityPolicy) (directive : String) (source : String) :
    ContentSecurityPolicy :=
  { csp with directives := entryPush csp.directives directive source }

/-- `pub fn base_uri`. -/
def base_uri (csp : ContentSecurityPolicy) (source : String) : ContentSecurityPolicy :=
  csp.insert_directive "base-uri" source

/-- `pub fn block_all_mixed_content`. -/
def block_all_mixed_content (csp : ContentSecurityPolicy) : ContentSecurityPolicy :=
  { csp with policy := csp.policy ++ ["block-all-mixed-content"] }

/-- `pub fn connect_src`. -/
def connect_src (csp : ContentSecurityPolicy) (source : String) : ContentSecurityPolicy :=
  csp.insert_directive "connect-src" source

/-- `pub fn default_src`. -/
def default_src (csp : ContentSecurityPolicy) (source : String) : ContentSecurityPolicy :=
  csp.insert_directive "default-src" source

/-- `pub fn font_src`. -/
def font_src (csp : ContentSecurityPolicy) (source : String) : ContentSecurityPolicy :=
  csp.insert_directive "font-src" source

/-- `pub fn form_action`. -/
def form_action (csp : ContentSecurityPolicy) (source : String) : ContentSecurityPolicy :=
  csp.insert_directive "form-action" source

/-- `pub fn frame_ancestors`. -/
def frame_ancestors (csp : ContentSecurityPolicy) (source : String) : ContentSecurityPolicy :=
  csp.insert_directive "frame-ancestors" source

/-- `pub fn frame_src`. -/
def frame_src (csp : ContentSecurityPolicy) (source : String) : ContentSecurityPolicy :=
  csp.insert_directive "frame-src" source

/-- `pub fn img_src`. -/
def img_src (csp : ContentSecurityPolicy) (source : String) : ContentSecurityPolicy :=
  csp.insert_directive "img-src" source

/-- `pub fn media_src`. -/
def media_src (csp : ContentSecurityPolicy) (source : String) : ContentSecurityPolicy :=
  csp.insert_directive "media-src" source

/-- `pub fn object_src`. -/
def object_src (csp : ContentSecurityPolicy) (source : String) : ContentSecurityPolicy :=
  csp.insert_directive "object-src" source

/-- `pub fn plugin_types`. -/
def plugin_types (csp : ContentSecurityPolicy) (source : String) : ContentSecurityPolicy :=
  csp.insert_directive "plugin-types" source

/-- `pub fn require_sri_for`. NOTE: the source passes the directive key
`"require-sri-for "` with a trailing space, faithfully reproduced here. -/
def require_sri_for (csp : ContentSecurityPolicy) (source : String) : ContentSecurityPolicy :=
  csp.insert_directive "require-sri-for " source

/-- `pub fn report_uri`: goes through `insert_directive`, i.e. accumulates
into the directive map under the key `"report-uri"`. -/
def report_uri (csp : ContentSecurityPolicy) (uri : String) : ContentSecurityPolicy :=
  csp.insert_directive "report-uri" uri

/-- The `for endpoint in endpoints.iter()` loop of `report_to`, parameterized
by the serializer so the `Err` (log and skip) branch is visible: an `Err`
leaves the builder unchanged and the loop continues with the next endpoint. -/
def report_to_with (ser : ReportTo → Except String String)
    (csp : ContentSecurityPolicy) (endpoints : List ReportTo) : ContentSecurityPolicy :=
  endpoints.foldl
    (fun acc endpoint =>
      match ser endpoint with
      | Except.ok json => { acc with policy := acc.policy ++ ["report-to " ++ json] }
      | Except.error _ => acc)
    csp

/-- `pub fn report_to`. -/
def report_to (csp : ContentSecurityPolicy) (endpoints : List ReportTo) :
    ContentSecurityPolicy :=
  report_to_with serdeToString csp endpoints

/-- `pub fn sandbox`. -/
def sandbox (csp : ContentSecurityPolicy) (source : String) : ContentSecurityPolicy :=
  csp.insert_directive "sandbox" source

/-- `pub fn script_src`. -/
def script_src (csp : ContentSecurityPolicy) (source : String) : ContentSecurityPolicy :=
  csp.insert_directive "script-src" source

/-- `pub fn style_src`. -/
def style_src (csp : ContentSecurityPolicy) (source : String) : ContentSecurityPolicy :=
  csp.insert_directive "style-src" source

/-- `pub fn upgrade_insecure_requests`. -/
def upgrade_insecure_requests (csp : ContentSecurityPolicy) : ContentSecurityPolicy :=
  { csp with policy := csp.policy ++ ["upgrade-insecure-requests"] }

/-- `pub fn worker_src`. -/
def worker_src (csp : ContentSecurityPolicy) (source : String) : ContentSecurityPolicy :=
  csp.insert_directive "worker-src" source

/-- `pub fn report_only`. -/
def report_only (csp : ContentSecurityPolicy) : ContentSecurityPolicy :=
  { csp with report_only_flag := true }

/-- The fragment `format!("{} {}", directive, sources.join(" "))`. -/
def fragment (p : String × List String) : String :=
  p.1 ++ " " ++ String.intercalate " " p.2

/-- The final contents of `self.policy` after the loop in `fn value`:
for each directive the fragment is pushed and then the vector is sorted. -/
def renderPolicy (csp : ContentSecurityPolicy) : List String :=
  csp.directives.foldl (fun acc p => sortStrings (acc ++ [fragment p])) csp.policy

/-- `fn value(&mut self) -> String`: returns the rendered string and the
mutated builder (the pushes into `self.policy` persist). -/
def value (csp : ContentSecurityPolicy) : String × ContentSecurityPolicy :=
  (String.intercalate "; " csp.renderPolicy, { csp with policy := csp.renderPolicy })

/-- `pub fn apply(&mut self, headers: &mut HeaderMap)`. -/
def apply (csp : ContentSecurityPolicy) (headers : HeaderMap) :
    ContentSecurityPolicy × HeaderMap :=
  let v := csp.value
  if !csp.report_only_flag then
    (v.2, headers.insert "Content-Security-Policy" v.1)
  else
    (v.2, headers.insert "Content-Security-Policy-Report-Only" v.1)

end ContentSecurityPolicy

/-! ### Order-theoretic facts about the string comparison used by the sort -/

theorem char_toNat_inj {a b : Char} (h : a.toNat = b.toNat) : a = b :=
  Char.ext (UInt32.toNat.inj h)

theorem strLtB_nil_right (as : List Char) : strLtB as [] = false := by
  cases as <;> rfl

theorem strLtB_cons (a b : Char) (as bs : List Char) :
    strLtB (a :: as) (b :: bs) =
      if a.toNat < b.toNat then true
      else if b.toNat < a.toNat then false
      else strLtB as bs := by
  simp [strLtB, Nat.blt_eq]

theorem strLtB_asymm : ∀ (as bs : List Char), strLtB as bs = true → strLtB bs as = false := by
  intro as
  induction as with
  | nil =>
    intro bs h
    exact strLtB_nil_right bs
  | cons a as ih =>
    intro bs h
    cases bs with
    | nil => simp [strLtB_nil_right] at h
    | cons b bs =>
      rw [strLtB_cons] at h ⊢
      by_cases hab : a.toNat < b.toNat
      · have hba : ¬ b.toNat < a.toNat := by omega
        simp [hab, hba]
      · by_cases hba : b.toNat < a.toNat
        · simp [hab, hba] at h
        · simp only [hab, hba, if_false] at h ⊢
          exact ih bs h

theorem strLtB_trans : ∀ (as bs cs : List Char),
    strLtB as bs = true → strLtB bs cs = true → strLtB as cs = true := by
  intro as
  induction as with
  | nil =>
    intro bs cs h1 h2
    cases bs with
    | nil => simp [strLtB] at h1
    | cons b bs =>
      cases cs with
      | nil => simp [strLtB_nil_right] at h2
      | cons c cs => simp [strLtB]
  | cons a as ih =>
    intro bs cs h1 h2
    cases bs with
    | nil => simp [strLtB_nil_right] at h1
    | cons b bs =>
      cases cs with
      | nil => simp [strLtB_nil_right] at h2
      | cons c cs =>
        rw [strLtB_cons] at h1 h2 ⊢
        by_cases hab : a.toNat < b.toNat
        · by_cases hbc : b.toNat < c.toNat
          · rw [if_pos (by omega : a.toNat < c.toNat)]
          · by_cases hcb : c.toNat < b.toNat
            · rw [if_neg hbc, if_pos hcb] at h2
              exact absurd h2 (by simp)
            · rw [if_pos (by omega : a.toNat < c.toNat)]
        · by_cases hba : b.toNat < a.toNat
          · rw [if_neg hab, if_pos hba] at h1
            exact absurd h1 (by simp)
          · rw [if_neg hab, if_neg hba] at h1
            by_cases hbc : b.toNat < c.toNat
            · rw [if_pos (by omega : a.toNat < c.toNat)]
            · by_cases hcb : c.toNat < b.toNat
              · rw [if_neg hbc, if_pos hcb] at h2
                exact absurd h2 (by simp)
              · rw [if_neg hbc, if_neg hcb] at h2
                rw [if_neg (by omega : ¬ a.toNat < c.toNat),
                  if_neg (by omega : ¬ c.toNat < a.toNat)]
                exact ih bs cs h1 h2

theorem strLtB_connex : ∀ (as bs : List Char),
    strLtB as bs = false → strLtB bs as = false → as = bs := by
  intro as
  induction as with
  | nil =>
    intro bs h1 _
    cases bs with
    | nil => rfl
    | cons b bs => simp [strLtB] at h1
  | cons a as ih =>
    intro bs h1 h2
    cases bs with
    | nil => simp [strLtB] at h2
    | cons b bs =>
      rw [strLtB_cons] at h1 h2
      by_cases hab : a.toNat < b.toNat
      · simp [hab] at h1
      · by_cases hba : b.toNat < a.toNat
        · simp [hab, hba] at h2
        · simp only [hab, hba, if_false] at h1 h2
          have hchar : a = b := char_toNat_inj (by omega)
          rw [hchar, ih bs h1 h2]

theorem strLe_iff_not_lt {a b : String} : strLe a b = true ↔ strLtB b.data a.data = false := by
  unfold strLe
  cases h : strLtB b.data a.data <;> simp [h]

theorem string_data_inj {a b : String} (h : a.data = b.data) : a = b := by
  cases a
  cases b
  exact congrArg String.mk h

instance : IsTotal String (fun a b => strLe a b = true) := by
  constructor
  intro a b
  by_cases h : strLtB b.data a.data = true
  · right
    exact strLe_iff_not_lt.mpr (strLtB_asymm _ _ h)
  · left
    exact strLe_iff_not_lt.mpr (Bool.eq_false_iff.mpr h)

instance : IsTrans String (fun a b => strLe a b = true) := by
  constructor
  intro a b c h1 h2
  rw [strLe_iff_not_lt] at h1 h2 ⊢
  by_contra hca
  have hca' : strLtB c.data a.data = true := Bool.eq_false_iff.not_left.mp hca
  by_cases hab : strLtB a.data b.data = true
  · have : strLtB c.data b.data = true := strLtB_trans _ _ _ hca' hab
    rw [h2] at this
    exact Bool.false_ne_true this
  · have hab' : strLtB a.data b.data = false := Bool.eq_false_iff.mpr hab
    have : a.data = b.data := strLtB_connex _ _ hab' h1
    rw [this] at hca'
    rw [h2] at hca'
    exact Bool.false_ne_true hca'

instance : IsAntisymm String (fun a b => strLe a b = true) := by
  constructor
  intro a b h1 h2
  rw [strLe_iff_not_lt] at h1 h2
  exact string_data_inj (strLtB_connex _ _ h2 h1)

/-! ### Facts about `sortStrings` -/

theorem sortStrings_perm (l : List String) : List.Perm (sortStrings l) l := by
  unfold sortStrings
  exact List.perm_insertionSort _ l

theorem sortStrings_sorted (l : List String) :
    List.Sorted (fun a b => strLe a b = true) (sortStrings l) := by
  unfold sortStrings
  exact List.sorted_insertionSort _ l

theorem sortStrings_congr {l l' : List String} (h : List.Perm l l') :
    sortStrings l = sortStrings l' :=
  List.eq_of_perm_of_sorted
    ((sortStrings_perm l).trans (h.trans (sortStrings_perm l').symm))
    (sortStrings_sorted l) (sortStrings_sorted l')

end Armor

namespace Armor

/-! ### Facts about the render fold in `value` -/

theorem sortStrings_singleton (x : String) : sortStrings [x] = [x] := rfl

theorem foldl_sortPush_perm :
    ∀ (ds : List (String × List String)) (acc : List String),
      List.Perm
        (ds.foldl (fun acc p => sortStrings (acc ++ [ContentSecurityPolicy.fragment p])) acc)
        (acc ++ ds.map ContentSecurityPolicy.fragment) := by
  intro ds
  induction ds with
  | nil =>
    intro acc
    simp
  | cons d ds ih =>
    intro acc
    simp only [List.foldl_cons, List.map_cons]
    refine (ih _).trans ?_
    refine ((sortStrings_perm _).append_right _).trans ?_
    rw [List.append_assoc]
    exact List.Perm.refl _

theorem foldl_sortPush_eq :
    ∀ (ds : List (String × List String)) (acc : List String), ds ≠ [] →
      ds.foldl (fun acc p => sortStrings (acc ++ [ContentSecurityPolicy.fragment p])) acc =
        sortStrings (acc ++ ds.map ContentSecurityPolicy.fragment) := by
  intro ds
  induction ds with
  | nil =>
    intro acc h
    exact absurd rfl h
  | cons d ds ih =>
    intro acc _
    simp only [List.foldl_cons, List.map_cons]
    by_cases hds : ds = []
    · subst hds
      simp
    · rw [ih _ hds]
      apply sortStrings_congr
      refine ((sortStrings_perm _).append_right _).trans ?_
      rw [List.append_assoc]
      exact List.Perm.refl _

theorem renderPolicy_perm (csp : ContentSecurityPolicy) :
    List.Perm csp.renderPolicy
      (csp.policy ++ csp.directives.map ContentSecurityPolicy.fragment) :=
  foldl_sortPush_perm csp.directives csp.policy

theorem renderPolicy_eq (csp : ContentSecurityPolicy) (h : csp.directives ≠ []) :
    csp.renderPolicy =
      sortStrings (csp.policy ++ csp.directives.map ContentSecurityPolicy.fragment) :=
  foldl_sortPush_eq csp.directives csp.policy h

/-! ### Facts about repeated directive insertion -/

theorem foldl_insert_directive (name : String) :
    ∀ (ss : List String) (csp : ContentSecurityPolicy),
      ss.foldl (fun c s => c.insert_directive name s) csp =
        { csp with directives := ss.foldl (fun d s => entryPush d name s) csp.directives } := by
  intro ss
  induction ss with
  | nil =>
    intro csp
    rfl
  | cons s ss ih =>
    intro csp
    simp only [List.foldl_cons]
    rw [ih]
    rfl

theorem entryPush_singleton_same (name s : String) (init : List String) :
    entryPush [(name, init)] name s = [(name, init ++ [s])] := by
  simp [entryPush]

theorem foldl_entryPush_singleton (name : String) :
    ∀ (ss : List String) (init : List String),
      ss.foldl (fun d s => entryPush d name s) [(name, init)] = [(name, init ++ ss)] := by
  intro ss
  induction ss with
  | nil =>
    intro init
    simp
  | cons s ss ih =>
    intro init
    simp only [List.foldl_cons]
    rw [entryPush_singleton_same, ih]
    simp

theorem foldl_entryPush_from_nil (name s : String) (ss : List String) :
    (s :: ss).foldl (fun d t => entryPush d name t) [] = [(name, s :: ss)] := by
  simp only [List.foldl_cons]
  rw [show entryPush [] name s = [(name, [s])] from rfl]
  rw [foldl_entryPush_singleton]
  simp

/-! ### Facts about the `HeaderMap` model -/

theorem filter_eq_of_filter_ne (key : String) :
    ∀ l : List (String × String),
      (l.filter (fun e => e.1 ≠ key)).filter (fun e => e.1 = key) = [] := by
  intro l
  induction l with
  | nil => rfl
  | cons e l ih =>
    by_cases h : e.1 = key
    · simp [List.filter_cons, h, ih]
    · simp [List.filter_cons, h, ih]

theorem filter_comm_of_ne {k1 k2 : String} (h : k1 ≠ k2) :
    ∀ l : List (String × String),
      (l.filter (fun e => e.1 ≠ k2)).filter (fun e => e.1 = k1) =
        l.filter (fun e => e.1 = k1) := by
  intro l
  rw [List.filter_filter]
  apply List.filter_congr
  intro a _
  by_cases ha : a.1 = k1
  · simp [ha, h]
  · simp [ha]

theorem getAll_insert_same (m : HeaderMap) (k v : String) :
    (m.insert k v).getAll k = [v] := by
  unfold HeaderMap.insert HeaderMap.getAll
  simp only [List.filter_append, filter_eq_of_filter_ne]
  simp [List.filter_cons]

theorem getAll_insert_other (m : HeaderMap) {k k' : String} (v : String)
    (h : lowerName k' ≠ lowerName k) :
    (m.insert k v).getAll k' = m.getAll k' := by
  unfold HeaderMap.insert HeaderMap.getAll
  rw [List.filter_append, filter_comm_of_ne h]
  have h' : lowerName k ≠ lowerName k' := fun hh => h hh.symm
  simp [List.filter_cons, h']

theorem getAll_append_same (m : HeaderMap) (k v : String) :
    (m.append k v).getAll k = m.getAll k ++ [v] := by
  unfold HeaderMap.append HeaderMap.getAll
  simp [List.filter_append, List.filter_cons]

theorem getAll_remove_same (m : HeaderMap) (k : String) :
    (m.remove k).getAll k = [] := by
  unfold HeaderMap.remove HeaderMap.getAll
  rw [filter_eq_of_filter_ne]
  rfl

theorem getAll_remove_other (m : HeaderMap) {k k' : String}
    (h : lowerName k' ≠ lowerName k) :
    (m.remove k).getAll k' = m.getAll k' := by
  unfold HeaderMap.remove HeaderMap.getAll
  rw [filter_comm_of_ne h]

theorem remove_of_not_contains (m : HeaderMap) (k : String)
    (h : m.containsKey k = false) : m.remove k = m := by
  unfold HeaderMap.remove
  unfold HeaderMap.containsKey at h
  congr 1
  rw [List.filter_eq_self]
  intro e he
  have hf := List.any_eq_false.mp h e he
  simpa using hf

theorem containsKey_insert_same (m : HeaderMap) (k v : String) :
    (m.insert k v).containsKey k = true := by
  unfold HeaderMap.insert HeaderMap.containsKey
  simp

theorem containsKey_eq_false_iff (m : HeaderMap) (k : String) :
    m.containsKey k = false ↔ m.getAll k = [] := by
  unfold HeaderMap.containsKey HeaderMap.getAll
  constructor
  · intro h
    rw [List.map_eq_nil_iff, List.filter_eq_nil_iff]
    intro e he
    have := List.any_eq_false.mp h e he
    simpa using this
  · intro h
    rw [List.map_eq_nil_iff, List.filter_eq_nil_iff] at h
    rw [List.any_eq_false]
    intro e he
    simpa using h e he

end Armor

namespace Armor

/-! ### Claim theorems -/

/-- C10: for every variant of the `Source` enum, the string produced by the
`Display` implementation equals the string returned by the `AsRef<str>`
implementation, so a `Source` renders identically on both paths. -/
theorem C10_source_display_eq_asref : ∀ s : Source, sourceDisplay s = sourceAsRef s := by
  intro s
  cases s <;> rfl

/-- C5 (code bug): evaluating the code, `require_sri_for("script")` on a fresh
builder renders as "require-sri-for  script" with TWO spaces, because
`require_sri_for` passes the directive key "require-sri-for " with a trailing
space to `insert_directive`, while the claim (like every other directive in
the fixed name set) requires the name "require-sri-for", one space, then the
tokens. -/
theorem C5_require_sri_for_two_spaces :
    (ContentSecurityPolicy.new.require_sri_for "script").value.1 =
        "require-sri-for  script" ∧
      (ContentSecurityPolicy.new.require_sri_for "script").value.1 ≠
        "require-sri-for script" := by
  exact ⟨by decide, by decide⟩

/-- C3: calling one directive-setting method (any `insert_directive`-backed
method, with arbitrary name) n ≥ 1 times with sources s :: ss on a fresh
builder yields exactly one directive-map entry for that name holding the
sources in call order with duplicates preserved, and the rendered policy is
that single fragment; in particular `script_src("'self'")` then
`script_src("'unsafe-inline'")` renders as "script-src 'self' 'unsafe-inline'". -/
theorem C3_directive_accumulates :
    (∀ (name s : String) (ss : List String),
      (((s :: ss).foldl (fun c t => c.insert_directive name t)
          ContentSecurityPolicy.new).directives = [(name, s :: ss)]) ∧
      ((s :: ss).foldl (fun c t => c.insert_directive name t)
          ContentSecurityPolicy.new).value.1 =
        name ++ " " ++ String.intercalate " " (s :: ss)) ∧
    ((ContentSecurityPolicy.new.script_src "'self'").script_src "'unsafe-inline'").value.1 =
      "script-src 'self' 'unsafe-inline'" := by
  refine ⟨fun name s ss => ⟨?_, ?_⟩, by decide⟩
  · rw [foldl_insert_directive]
    exact foldl_entryPush_from_nil name s ss
  · rw [foldl_insert_directive,
      show ContentSecurityPolicy.new.directives = ([] : List (String × List String)) from rfl,
      foldl_entryPush_from_nil]
    rfl

/-- C4 (counterexample): two calls `report_uri("u1")`, `report_uri("u2")` do
NOT append two standalone "report-uri <uri>" policy tokens: the standalone
token list stays empty, the sources accumulate in the directive map under the
key "report-uri", and the rendered policy is the single merged fragment
"report-uri u1 u2" rather than "report-uri u1; report-uri u2". -/
theorem C4_report_uri_counterexample :
    ((ContentSecurityPolicy.new.report_uri "u1").report_uri "u2").policy = [] ∧
    ((ContentSecurityPolicy.new.report_uri "u1").report_uri "u2").directives =
        [("report-uri", ["u1", "u2"])] ∧
    ((ContentSecurityPolicy.new.report_uri "u1").report_uri "u2").value.1 =
        "report-uri u1 u2" ∧
    ((ContentSecurityPolicy.new.report_uri "u1").report_uri "u2").value.1 ≠
        "report-uri u1; report-uri u2" := by
  exact ⟨by decide, by decide, by decide, by decide⟩

/-- C4 (amended): `report_uri` goes through `insert_directive`, so n ≥ 1 calls
with uris u :: us accumulate under the single directive-map key "report-uri"
and render as the one merged fragment "report-uri u1 u2 ... un"; no standalone
policy token is appended. -/
theorem C4_report_uri_merges (u : String) (us : List String) :
    (((u :: us).foldl (fun c t => c.report_uri t)
        ContentSecurityPolicy.new).directives = [("report-uri", u :: us)]) ∧
    (((u :: us).foldl (fun c t => c.report_uri t)
        ContentSecurityPolicy.new).policy = []) ∧
    ((u :: us).foldl (fun c t => c.report_uri t)
        ContentSecurityPolicy.new).value.1 =
      "report-uri " ++ String.intercalate " " (u :: us) := by
  refine ⟨?_, ?_, ?_⟩
  · rw [show (fun (c : ContentSecurityPolicy) (t : String) => c.report_uri t) =
        (fun c t => c.insert_directive "report-uri" t) from rfl]
    rw [foldl_insert_directive]
    exact foldl_entryPush_from_nil "report-uri" u us
  · rw [show (fun (c : ContentSecurityPolicy) (t : String) => c.report_uri t) =
        (fun c t => c.insert_directive "report-uri" t) from rfl]
    rw [foldl_insert_directive]
    rfl
  · rw [show (fun (c : ContentSecurityPolicy) (t : String) => c.report_uri t) =
        (fun c t => c.insert_directive "report-uri" t) from rfl]
    rw [foldl_insert_directive,
      show ContentSecurityPolicy.new.directives = ([] : List (String × List String)) from rfl,
      foldl_entryPush_from_nil]
    rfl

end Armor

namespace Armor

theorem renderPolicy_of_directives_nil (csp : ContentSecurityPolicy)
    (h : csp.directives = []) : csp.renderPolicy = csp.policy := by
  unfold ContentSecurityPolicy.renderPolicy
  rw [h]
  rfl

/-- C1 (counterexample): with an EMPTY directive map the render loop never
runs, so `value` never sorts: a builder holding the standalone tokens
upgrade-insecure-requests then block-all-mixed-content (in that insertion
order) renders them unsorted, not as the lexicographically sorted join. -/
theorem C1_unsorted_without_directives :
    ContentSecurityPolicy.new.upgrade_insecure_requests.block_all_mixed_content.value.1 =
        "upgrade-insecure-requests; block-all-mixed-content" ∧
      ContentSecurityPolicy.new.upgrade_insecure_requests.block_all_mixed_content.value.1 ≠
        String.intercalate "; "
          (sortStrings
            (ContentSecurityPolicy.new.upgrade_insecure_requests.block_all_mixed_content.policy ++
              ContentSecurityPolicy.new.upgrade_insecure_requests.block_all_mixed_content.directives.map
                ContentSecurityPolicy.fragment)) := by
  exact ⟨by decide, by decide⟩

/-- C1 (amended): whenever the directive map is nonempty, `value` returns the
"; "-join of the complete token list (standalone tokens plus one
"name tokens" fragment per directive-map entry) sorted lexicographically
ascending; with an empty directive map the standalone tokens are joined in
insertion order without sorting. In particular the default_src/script_src/
object_src/upgrade_insecure_requests example renders exactly as claimed. -/
theorem C1_render_sorted_join :
    (∀ csp : ContentSecurityPolicy, csp.directives ≠ [] →
      csp.value.1 = String.intercalate "; "
        (sortStrings (csp.policy ++ csp.directives.map ContentSecurityPolicy.fragment))) ∧
    (∀ csp : ContentSecurityPolicy, csp.directives = [] →
      csp.value.1 = String.intercalate "; " csp.policy) ∧
    (ContentSecurityPolicy.new.default_src "'self'" |>.default_src "areweasyncyet.rs"
        |>.script_src "'self'" |>.object_src "'none'" |>.upgrade_insecure_requests).value.1 =
      "default-src 'self' areweasyncyet.rs; object-src 'none'; script-src 'self'; upgrade-insecure-requests" := by
  refine ⟨fun csp h => ?_, fun csp h => ?_, by decide⟩
  · show String.intercalate "; " csp.renderPolicy = _
    rw [renderPolicy_eq csp h]
  · show String.intercalate "; " csp.renderPolicy = _
    rw [renderPolicy_of_directives_nil csp h]

/-- C1 witness: the sorted-join formula applied to a concrete builder with a
nonempty directive map. -/
theorem C1_render_sorted_join_witness :
    (ContentSecurityPolicy.new.script_src "'self'").directives ≠ [] ∧
    (ContentSecurityPolicy.new.script_src "'self'").value.1 =
      String.intercalate "; "
        (sortStrings ((ContentSecurityPolicy.new.script_src "'self'").policy ++
          (ContentSecurityPolicy.new.script_src "'self'").directives.map
            ContentSecurityPolicy.fragment)) :=
  ⟨by decide, C1_render_sorted_join.1 _ (by decide)⟩

/-- C2 (counterexample): `value` is not idempotent: it re-appends every
directive fragment into the stored token list, so on a builder with one
script-src entry the first call renders "script-src 'self'" and a second
call on the same (mutated) builder renders "script-src 'self'; script-src
'self'". -/
theorem C2_value_not_idempotent :
    (ContentSecurityPolicy.new.script_src "'self'").value.1 = "script-src 'self'" ∧
    (ContentSecurityPolicy.new.script_src "'self'").value.2.value.1 =
      "script-src 'self'; script-src 'self'" ∧
    (ContentSecurityPolicy.new.script_src "'self'").value.2.value.1 ≠
      (ContentSecurityPolicy.new.script_src "'self'").value.1 := by
  exact ⟨by decide, by decide, by decide⟩

/-- C2 (amended): a second `value` call on the same builder is idempotent
exactly when the directive map is empty; in general the second call
re-accumulates the directive-map fragments, its stored token list being a
permutation of the first call's token list plus one more copy of every
directive fragment. -/
theorem C2_value_second_call (csp : ContentSecurityPolicy) :
    (csp.directives = [] → csp.value.2.value.1 = csp.value.1) ∧
    List.Perm csp.value.2.value.2.policy
      (csp.value.2.policy ++ csp.directives.map ContentSecurityPolicy.fragment) := by
  constructor
  · intro h
    show String.intercalate "; " csp.value.2.renderPolicy =
      String.intercalate "; " csp.renderPolicy
    congr 1
    rw [renderPolicy_of_directives_nil csp.value.2 h]
    rfl
  · exact renderPolicy_perm _

/-- C2 witness: idempotence of `value` on a concrete builder whose directive
map is empty. -/
theorem C2_value_second_call_witness :
    ContentSecurityPolicy.new.upgrade_insecure_requests.directives = [] ∧
    ContentSecurityPolicy.new.upgrade_insecure_requests.value.2.value.1 =
      ContentSecurityPolicy.new.upgrade_insecure_requests.value.1 :=
  ⟨by decide, (C2_value_second_call _).1 (by decide)⟩

/-- C6: `apply` writes the rendered policy under
Content-Security-Policy-Report-Only when the report-only flag is set and
under Content-Security-Policy otherwise; the write overwrites, leaving
exactly one value under the chosen key, and if neither key was present
beforehand the non-chosen key is still absent afterwards. -/
theorem C6_apply_chooses_header (csp : ContentSecurityPolicy) (headers : HeaderMap) :
    ((csp.report_only_flag = true →
        (csp.apply headers).2.getAll "Content-Security-Policy-Report-Only" = [csp.value.1]) ∧
      (csp.report_only_flag = false →
        (csp.apply headers).2.getAll "Content-Security-Policy" = [csp.value.1])) ∧
    (headers.getAll "Content-Security-Policy" = [] →
      headers.getAll "Content-Security-Policy-Report-Only" = [] →
      ((csp.report_only_flag = true →
          (csp.apply headers).2.getAll "Content-Security-Policy" = []) ∧
        (csp.report_only_flag = false →
          (csp.apply headers).2.getAll "Content-Security-Policy-Report-Only" = []))) := by
  have hne : lowerName "Content-Security-Policy" ≠
      lowerName "Content-Security-Policy-Report-Only" := by decide
  have hne' : lowerName "Content-Security-Policy-Report-Only" ≠
      lowerName "Content-Security-Policy" := by decide
  have happf : csp.report_only_flag = false →
      csp.apply headers = (csp.value.2, headers.insert "Content-Security-Policy" csp.value.1) := by
    intro h
    unfold ContentSecurityPolicy.apply
    rw [h]
    rfl
  have happt : csp.report_only_flag = true →
      csp.apply headers =
        (csp.value.2, headers.insert "Content-Security-Policy-Report-Only" csp.value.1) := by
    intro h
    unfold ContentSecurityPolicy.apply
    rw [h]
    rfl
  cases hflag : csp.report_only_flag
  · refine ⟨⟨fun hc => Bool.noConfusion hc, fun _ => ?_⟩,
      fun _ hro => ⟨fun hc => Bool.noConfusion hc, fun _ => ?_⟩⟩
    · rw [happf hflag]
      exact getAll_insert_same headers _ _
    · rw [happf hflag]
      show (headers.insert "Content-Security-Policy" csp.value.1).getAll
        "Content-Security-Policy-Report-Only" = []
      rw [getAll_insert_other headers _ hne']
      exact hro
  · refine ⟨⟨fun _ => ?_, fun hc => Bool.noConfusion hc⟩,
      fun hcsp _ => ⟨fun _ => ?_, fun hc => Bool.noConfusion hc⟩⟩
    · rw [happt hflag]
      exact getAll_insert_same headers _ _
    · rw [happt hflag]
      show (headers.insert "Content-Security-Policy-Report-Only" csp.value.1).getAll
        "Content-Security-Policy" = []
      rw [getAll_insert_other headers _ hne]
      exact hcsp

/-- C6 witness: a report-only builder applied to an empty collection stores
the policy under Content-Security-Policy-Report-Only and leaves
Content-Security-Policy absent. -/
theorem C6_apply_chooses_header_witness :
    ((ContentSecurityPolicy.new.report_only.apply HeaderMap.empty).2.getAll
        "Content-Security-Policy-Report-Only" =
      [ContentSecurityPolicy.new.report_only.value.1]) ∧
    ((ContentSecurityPolicy.new.report_only.apply HeaderMap.empty).2.getAll
        "Content-Security-Policy" = []) :=
  ⟨(C6_apply_chooses_header ContentSecurityPolicy.new.report_only HeaderMap.empty).1.1 rfl,
    ((C6_apply_chooses_header ContentSecurityPolicy.new.report_only HeaderMap.empty).2
      rfl rfl).1 rfl⟩

end Armor

namespace Armor

theorem report_to_with_eq (ser : ReportTo → Except String String) :
    ∀ (endpoints : List ReportTo) (csp : ContentSecurityPolicy),
      ContentSecurityPolicy.report_to_with ser csp endpoints =
        { csp with policy := csp.policy ++ endpoints.filterMap (fun e =>
            match ser e with
            | Except.ok json => some ("report-to " ++ json)
            | Except.error _ => none) } := by
  intro endpoints
  induction endpoints with
  | nil =>
    intro csp
    simp [ContentSecurityPolicy.report_to_with]
  | cons e es ih =>
    intro csp
    unfold ContentSecurityPolicy.report_to_with at ih ⊢
    simp only [List.foldl_cons, List.filterMap_cons]
    cases hser : ser e with
    | ok json =>
      simp only [hser]
      rw [ih]
      simp [List.append_assoc]
    | error err =>
      simp only [hser]
      rw [ih]

/-- C7: the `report_to` loop appends, in input order, one policy token
"report-to <json>" per endpoint descriptor whose serialization succeeds,
skipping failed descriptors without disturbing the rest of the builder (shown
for an arbitrary serializer `ser`, modelling the match on
`serde_json::to_string`); with the concrete serializer every descriptor
serializes, `group` and `include_subdomains` are omitted from the JSON
object exactly when unset, and `max_age` and `endpoints` are always emitted. -/
theorem C7_report_to_serialization :
    (∀ (ser : ReportTo → Except String String) (endpoints : List ReportTo)
        (csp : ContentSecurityPolicy),
      (ContentSecurityPolicy.report_to_with ser csp endpoints).policy =
          csp.policy ++ endpoints.filterMap (fun e =>
            match ser e with
            | Except.ok json => some ("report-to " ++ json)
            | Except.error _ => none) ∧
        (ContentSecurityPolicy.report_to_with ser csp endpoints).directives =
          csp.directives ∧
        (ContentSecurityPolicy.report_to_with ser csp endpoints).report_only_flag =
          csp.report_only_flag) ∧
    (∀ (endpoints : List ReportTo) (csp : ContentSecurityPolicy),
      (csp.report_to endpoints).policy =
        csp.policy ++ endpoints.map (fun e => "report-to " ++ serializeReportTo e)) ∧
    (serializeReportTo ⟨some "g", 3, [⟨"https://a.example"⟩], some true⟩ =
      "\x7b\"group\":\"g\",\"max_age\":3,\"endpoints\":[\x7b\"url\":\"https://a.example\"\x7d],\"include_subdomains\":true\x7d") ∧
    (serializeReportTo ⟨none, 5, [⟨"u1"⟩, ⟨"u2"⟩], none⟩ =
      "\x7b\"max_age\":5,\"endpoints\":[\x7b\"url\":\"u1\"\x7d,\x7b\"url\":\"u2\"\x7d]\x7d") ∧
    (serializeReportTo ⟨none, -7, [], some false⟩ =
      "\x7b\"max_age\":-7,\"endpoints\":[],\"include_subdomains\":false\x7d") := by
  refine ⟨fun ser endpoints csp => ?_, fun endpoints csp => ?_, by decide, by decide, by decide⟩
  · rw [report_to_with_eq]
    exact ⟨rfl, rfl, rfl⟩
  · show (ContentSecurityPolicy.report_to_with serdeToString csp endpoints).policy = _
    rw [report_to_with_eq]
    show csp.policy ++ endpoints.filterMap _ = csp.policy ++ endpoints.map _
    congr 1
    exact List.filterMap_eq_map _ ▸ rfl

/-- C8: `referrer_policy` maps the nine inputs to exactly the documented
strings, and appends rather than overwrites when Referrer-Policy is already
present, so two calls on a fresh collection leave the header present twice
with both values in call order. -/
theorem C8_referrer_policy_values_and_append :
    (referrerValue none = "" ∧
      referrerValue (some ReferrerOptions.Empty) = "" ∧
      referrerValue (some ReferrerOptions.NoReferrer) = "no-referrer" ∧
      referrerValue (some ReferrerOptions.NoReferrerDowngrade) = "no-referrer-when-downgrade" ∧
      referrerValue (some ReferrerOptions.SameOrigin) = "same-origin" ∧
      referrerValue (some ReferrerOptions.Origin) = "origin" ∧
      referrerValue (some ReferrerOptions.StrictOrigin) = "strict-origin" ∧
      referrerValue (some ReferrerOptions.CrossOrigin) = "origin-when-cross-origin" ∧
      referrerValue (some ReferrerOptions.StrictCrossOrigin) =
        "strict-origin-when-cross-origin" ∧
      referrerValue (some ReferrerOptions.UnsafeUrl) = "unsafe-url") ∧
    (∀ (m : HeaderMap) (r : Option ReferrerOptions),
      m.containsKey "Referrer-Policy" = true →
        (referrer_policy m r).getAll "Referrer-Policy" =
          m.getAll "Referrer-Policy" ++ [referrerValue r]) ∧
    (∀ (m : HeaderMap) (r1 r2 : Option ReferrerOptions),
      m.containsKey "Referrer-Policy" = false →
        (referrer_policy (referrer_policy m r1) r2).getAll "Referrer-Policy" =
          [referrerValue r1, referrerValue r2]) := by
  have hofc : ∀ (m : HeaderMap) (r : Option ReferrerOptions),
      m.containsKey "Referrer-Policy" = true →
        referrer_policy m r = m.append "Referrer-Policy" (referrerValue r) := by
    intro m r hc
    unfold referrer_policy
    rw [hc]
    rfl
  have hofn : ∀ (m : HeaderMap) (r : Option ReferrerOptions),
      m.containsKey "Referrer-Policy" = false →
        referrer_policy m r = m.insert "Referrer-Policy" (referrerValue r) := by
    intro m r hc
    unfold referrer_policy
    rw [hc]
    rfl
  refine ⟨⟨rfl, rfl, rfl, rfl, rfl, rfl, rfl, rfl, rfl, rfl⟩, ?_, ?_⟩
  · intro m r hc
    rw [hofc m r hc]
    exact getAll_append_same m _ _
  · intro m r1 r2 hc
    rw [hofn m r1 hc,
      hofc _ r2 (containsKey_insert_same m "Referrer-Policy" (referrerValue r1)),
      getAll_append_same, getAll_insert_same]
    rfl

/-- C8 witness: two calls with different modes on an empty collection leave
both values stored under Referrer-Policy, in call order. -/
theorem C8_referrer_policy_witness :
    HeaderMap.empty.containsKey "Referrer-Policy" = false ∧
    (referrer_policy (referrer_policy HeaderMap.empty (some ReferrerOptions.UnsafeUrl))
        (some ReferrerOptions.NoReferrer)).getAll "Referrer-Policy" =
      [referrerValue (some ReferrerOptions.UnsafeUrl),
        referrerValue (some ReferrerOptions.NoReferrer)] :=
  ⟨rfl, C8_referrer_policy_values_and_append.2.2 HeaderMap.empty
    (some ReferrerOptions.UnsafeUrl) (some ReferrerOptions.NoReferrer) rfl⟩

end Armor

namespace Armor

/-- C9: each fixed single-value header function sets exactly its documented
header/value pair — X-DNS-Prefetch-Control: on; X-Content-Type-Options:
nosniff; X-Frame-Options: sameorigin for None/SameOrigin and deny for Deny;
Strict-Transport-Security: max-age=5184000; X-XSS-Protection: 1; mode=block —
and leaves the values stored under every other header name unchanged;
`hide_powered_by` removes only X-Powered-By and is a no-op when it is
absent. -/
theorem C9_fixed_header_functions (h : HeaderMap) :
    ((dns_prefetch_control h).getAll "X-DNS-Prefetch-Control" = ["on"] ∧
      ∀ k, lowerName k ≠ lowerName "X-DNS-Prefetch-Control" →
        (dns_prefetch_control h).getAll k = h.getAll k) ∧
    ((dont_sniff_mimetype h).getAll "X-Content-Type-Options" = ["nosniff"] ∧
      ∀ k, lowerName k ≠ lowerName "X-Content-Type-Options" →
        (dont_sniff_mimetype h).getAll k = h.getAll k) ∧
    ((frameguard h none).getAll "X-Frame-Options" = ["sameorigin"] ∧
      (frameguard h (some FrameOptions.SameOrigin)).getAll "X-Frame-Options" = ["sameorigin"] ∧
      (frameguard h (some FrameOptions.Deny)).getAll "X-Frame-Options" = ["deny"] ∧
      ∀ (g : Option FrameOptions) (k : String), lowerName k ≠ lowerName "X-Frame-Options" →
        (frameguard h g).getAll k = h.getAll k) ∧
    ((hsts h).getAll "Strict-Transport-Security" = ["max-age=5184000"] ∧
      ∀ k, lowerName k ≠ lowerName "Strict-Transport-Security" →
        (hsts h).getAll k = h.getAll k) ∧
    ((xss_filter h).getAll "X-XSS-Protection" = ["1; mode=block"] ∧
      ∀ k, lowerName k ≠ lowerName "X-XSS-Protection" →
        (xss_filter h).getAll k = h.getAll k) ∧
    ((hide_powered_by h).getAll "X-Powered-By" = [] ∧
      (∀ k, lowerName k ≠ lowerName "X-Powered-By" →
        (hide_powered_by h).getAll k = h.getAll k) ∧
      (h.containsKey "X-Powered-By" = false → hide_powered_by h = h)) := by
  refine ⟨⟨getAll_insert_same h _ _, fun k hk => getAll_insert_other h _ hk⟩,
    ⟨getAll_insert_same h _ _, fun k hk => getAll_insert_other h _ hk⟩,
    ⟨getAll_insert_same h _ _, getAll_insert_same h _ _, getAll_insert_same h _ _,
      fun g k hk => ?_⟩,
    ⟨getAll_insert_same h _ _, fun k hk => getAll_insert_other h _ hk⟩,
    ⟨getAll_insert_same h _ _, fun k hk => getAll_insert_other h _ hk⟩,
    ⟨getAll_remove_same h _, fun k hk => getAll_remove_other h hk,
      fun hc => remove_of_not_contains h _ hc⟩⟩
  cases g with
  | none => exact getAll_insert_other h _ hk
  | some f =>
    cases f with
    | SameOrigin => exact getAll_insert_other h _ hk
    | Deny => exact getAll_insert_other h _ hk

/-- C9 witness: the frame conditions applied at a concrete collection and a
concrete unrelated header name. -/
theorem C9_fixed_header_functions_witness :
    lowerName "X-Other" ≠ lowerName "X-DNS-Prefetch-Control" ∧
    (dns_prefetch_control HeaderMap.empty).getAll "X-Other" =
      HeaderMap.empty.getAll "X-Other" ∧
    HeaderMap.empty.containsKey "X-Powered-By" = false ∧
    hide_powered_by HeaderMap.empty = HeaderMap.empty :=
  ⟨by decide, (C9_fixed_header_functions HeaderMap.empty).1.2 "X-Other" (by decide),
    rfl, (C9_fixed_header_functions HeaderMap.empty).2.2.2.2.2.2.2 rfl⟩

end Armor
